import Mathlib

/-!
# OpenConverse session core — verification of the spec claims

Shallow embedding of the audio-bridging gateway's core: the G.711 mu-law
codec and naive resamplers, the bounded `AudioBuffer`, the session
`Manager` registry, the browser-mode client-message dispatch and the
telephony (Twilio) event loop, together with theorems settling the
spec claims about them.

Machine-integer conventions: Go `byte` values are modelled as `Nat`
(callers keep them below 256), Go `int16` as `Int` with explicit
two's-complement wrapping (`toInt16`) at every point where the Go code
performs an `int16` conversion or an operation that can wrap.  Go maps
and slices become association lists and `List Nat`; methods that mutate
a receiver and return an `error` become functions returning the new
state paired with an `Except String` result.
-/

/-- Two's-complement wrap of an integer into the `int16` range
`[-32768, 32767]`, i.e. the value of the Go conversion `int16(x)`. -/
def toInt16 (n : Int) : Int := (n + 32768) % 65536 - 32768

/-- The value of the Go conversion `uint16(x)` for an `int16` input:
the representative of `x` modulo `2^16` in `[0, 65535]`. -/
def toUInt16 (n : Int) : Nat := (n % 65536).toNat

/-- Go `session.decodeMuLawByte` (part_001:593-619): decode one G.711
mu-law byte to a 16-bit linear PCM sample.  The byte is bit-inverted,
split into sign (bit 7), exponent (bits 6-4) and mantissa (bits 3-0);
the magnitude is `((mantissa << 3) + 0x84) << exponent` minus the bias
`0x84`, negated when the sign bit is set.  The intermediate product is
computed in `int32` in Go and never exceeds 32256, so the `int16`
conversion is wrapped explicitly with `toInt16`. -/
def decodeMuLawByte (uVal : Nat) : Int :=
  let u := uVal ^^^ 0xFF
  let sign := u &&& 0x80
  let exponent := (u >>> 4) &&& 0x07
  let mantissa := u &&& 0x0F
  let sample := toInt16 (Int.ofNat (((mantissa <<< 3) + 0x84) <<< exponent))
  let sample := toInt16 (sample - 0x84)
  if sign ≠ 0 then toInt16 (-sample) else sample

/-- The `for mask := 0x4000; pcm&int16(mask) == 0 && exponent > 0; mask >>= 1`
loop of Go `session.PcmToMuLawByte`: starting from exponent 7 and mask
`0x4000`, decrement the exponent while the masked bit of the biased
magnitude is clear, stopping at exponent 0.  `q` is the 16-bit
two's-complement representation of the Go `int16` value, on which
`pcm & int16(mask)` for the positive masks used here is `q &&& mask`. -/
def muLawExponentLoop (q : Nat) : Nat → Nat → Nat
  | 0, _ => 0
  | e + 1, mask => if q &&& mask = 0 then muLawExponentLoop q e (mask >>> 1) else e + 1

/-- Go `session.PcmToMuLawByte` (part_001:621-657): encode a 16-bit
linear PCM sample as one G.711 mu-law byte.  Sign from bit 15
(`(pcm >> 8) & 0x80`), magnitude by (wrapping) negation, clip to 32635,
add bias 0x84, find the exponent by scanning bits 14..8, take the 4
mantissa bits below the exponent position, assemble and bit-invert.
`q` below is the 16-bit two's-complement image of the Go `int16` value
`pcm`; arithmetic shifts followed by small positive masks read the same
bits on `q` as they do on the `int16`. -/
def PcmToMuLawByte (pcm0 : Int) : Nat :=
  let pcm := toInt16 pcm0
  let sign := (toUInt16 pcm >>> 8) &&& 0x80
  let pcm := if pcm < 0 then toInt16 (-pcm) else pcm
  let pcm := if pcm > 32635 then (32635 : Int) else pcm
  let pcm := pcm + 0x84
  let q := toUInt16 pcm
  let exponent := muLawExponentLoop q 7 0x4000
  let mantissa := (q >>> (exponent + 3)) &&& 0x0F
  let ulawByte := (sign ||| (exponent <<< 4) ||| mantissa) % 256
  ulawByte ^^^ 0xFF

/-- Go `session.muLawToPcmTable` (part_001:20, filled by `init` at
part_001:584-588): the 256-entry decode lookup table, as the function
it tabulates.  Indexing the table with a byte `b` yields
`decodeMuLawByte b`. -/
def muLawToPcmTable (b : Nat) : Int := decodeMuLawByte (b % 256)

example : decodeMuLawByte 0xFF = 0 := by decide
example : decodeMuLawByte 0x7F = 0 := by decide
example : decodeMuLawByte 0x00 = -32124 := by decide
example : decodeMuLawByte 0x80 = 32124 := by decide
example : PcmToMuLawByte 0 = 0xFF := by decide
example : PcmToMuLawByte (-1) = 0x7F := by decide
example : PcmToMuLawByte (-32768) = 0x7F := by decide
example : PcmToMuLawByte 32124 = 0x80 := by decide
example : PcmToMuLawByte (decodeMuLawByte 0x23) = 0x23 := by decide

/-- The canonical published G.711 mu-law decode table (the 256 PCM values
of the Sun Microsystems / CCITT reference `ulaw_to_linear` table, in byte
order 0x00..0xFF).  This is the spec-side reference object, written out
literally, against which the decoder is checked (claim C2). -/
def muLawReferenceTable : List Int := [
  -32124, -31100, -30076, -29052, -28028, -27004, -25980, -24956, -23932, -22908, -21884, -20860, -19836, -18812, -17788, -16764,
  -15996, -15484, -14972, -14460, -13948, -13436, -12924, -12412, -11900, -11388, -10876, -10364, -9852, -9340, -8828, -8316,
  -7932, -7676, -7420, -7164, -6908, -6652, -6396, -6140, -5884, -5628, -5372, -5116, -4860, -4604, -4348, -4092,
  -3900, -3772, -3644, -3516, -3388, -3260, -3132, -3004, -2876, -2748, -2620, -2492, -2364, -2236, -2108, -1980,
  -1884, -1820, -1756, -1692, -1628, -1564, -1500, -1436, -1372, -1308, -1244, -1180, -1116, -1052, -988, -924,
  -876, -844, -812, -780, -748, -716, -684, -652, -620, -588, -556, -524, -492, -460, -428, -396,
  -372, -356, -340, -324, -308, -292, -276, -260, -244, -228, -212, -196, -180, -164, -148, -132,
  -120, -112, -104, -96, -88, -80, -72, -64, -56, -48, -40, -32, -24, -16, -8, 0,
  32124, 31100, 30076, 29052, 28028, 27004, 25980, 24956, 23932, 22908, 21884, 20860, 19836, 18812, 17788, 16764,
  15996, 15484, 14972, 14460, 13948, 13436, 12924, 12412, 11900, 11388, 10876, 10364, 9852, 9340, 8828, 8316,
  7932, 7676, 7420, 7164, 6908, 6652, 6396, 6140, 5884, 5628, 5372, 5116, 4860, 4604, 4348, 4092,
  3900, 3772, 3644, 3516, 3388, 3260, 3132, 3004, 2876, 2748, 2620, 2492, 2364, 2236, 2108, 1980,
  1884, 1820, 1756, 1692, 1628, 1564, 1500, 1436, 1372, 1308, 1244, 1180, 1116, 1052, 988, 924,
  876, 844, 812, 780, 748, 716, 684, 652, 620, 588, 556, 524, 492, 460, 428, 396,
  372, 356, 340, 324, 308, 292, 276, 260, 244, 228, 212, 196, 180, 164, 148, 132,
  120, 112, 104, 96, 88, 80, 72, 64, 56, 48, 40, 32, 24, 16, 8, 0]

set_option maxRecDepth 8192

/-- Re-encoding a decoded mu-law byte reproduces the byte, for every byte
except 0x7F (negative zero). -/
lemma encode_decode_eq_of_ne :
    ∀ b : Nat, b < 256 → b ≠ 127 → PcmToMuLawByte (decodeMuLawByte b) = b := by decide

/-- The only mu-law bytes that decode to PCM value 0 are 0x7F and 0xFF. -/
lemma decode_eq_zero_iff :
    ∀ b : Nat, b < 256 → (decodeMuLawByte b = 0 ↔ b = 127 ∨ b = 255) := by decide

/-- The mu-law encoder always produces a byte value. -/
lemma PcmToMuLawByte_lt (x : Int) : PcmToMuLawByte x < 256 := by
  have h : ∀ n : Nat, n < 256 → n ^^^ 0xFF < 256 := by decide
  unfold PcmToMuLawByte
  exact h _ (Nat.mod_lt _ (by omega))

/-- Go `session.AudioBuffer` (part_002:12-17): ordered chunks, running
total size and the fixed maximum size.  The `sync.Mutex` serializes the
methods; each method body is modelled as one atomic function. -/
structure AudioBuffer where
  chunks : List (List Nat)
  totalSize : Nat
  maxSize : Nat
  deriving Repr, DecidableEq

/-- Go `session.NewAudioBuffer` (part_002:20-25). -/
def NewAudioBuffer (maxSize : Nat) : AudioBuffer :=
  { chunks := [], totalSize := 0, maxSize := maxSize }

/-- Go `(*AudioBuffer).Append` (part_002:34-46): reject with
`ErrBufferFull` ("audio buffer full") when the new total would exceed
`maxSize`, otherwise append the chunk and update the total.  The Go
method mutates the receiver and returns an `error`; here it returns the
new buffer paired with the result, the error case returning the
receiver unchanged. -/
def AudioBuffer.append (ab : AudioBuffer) (chunk : List Nat) : AudioBuffer × Except String Unit :=
  let newSize := ab.totalSize + chunk.length
  if newSize > ab.maxSize then (ab, .error "audio buffer full")
  else ({ ab with chunks := ab.chunks ++ [chunk], totalSize := newSize }, .ok ())

/-- Go `(*AudioBuffer).Flush` (part_002:50-69): `nil` (here `none`) on an
empty buffer, otherwise the in-order concatenation of all chunks, with
the buffer cleared. -/
def AudioBuffer.flush (ab : AudioBuffer) : Option (List Nat) × AudioBuffer :=
  if ab.chunks.length = 0 then (none, ab)
  else (some ab.chunks.flatten, { ab with chunks := [], totalSize := 0 })

/-- Go `(*AudioBuffer).Clear` (part_002:72-78). -/
def AudioBuffer.clear (ab : AudioBuffer) : AudioBuffer :=
  { ab with chunks := [], totalSize := 0 }

/-- Go `(*AudioBuffer).Size` (part_002:81-85). -/
def AudioBuffer.size (ab : AudioBuffer) : Nat := ab.totalSize

/-- Go `(*AudioBuffer).IsEmpty` (part_002:88-92). -/
def AudioBuffer.isEmpty (ab : AudioBuffer) : Bool := ab.chunks.length = 0

/-- Go `(*AudioBuffer).ChunkCount` (part_002:95-99). -/
def AudioBuffer.chunkCount (ab : AudioBuffer) : Nat := ab.chunks.length

/-- A sequence of `Append` calls, one per chunk, stopping at the first
failure: the final buffer and whether every call succeeded. -/
def AudioBuffer.appendAll (ab : AudioBuffer) : List (List Nat) → AudioBuffer × Bool
  | [] => (ab, true)
  | c :: cs =>
    match ab.append c with
    | (ab2, .ok _) => ab2.appendAll cs
    | (ab2, .error _) => (ab2, false)

/-- `appendAll` under the size bound: every append succeeds, the chunks
accumulate in order and the total-size counter tracks the sum of chunk
lengths. -/
lemma appendAll_ok (cs : List (List Nat)) : ∀ (ab : AudioBuffer),
    ab.totalSize + (cs.map List.length).sum ≤ ab.maxSize →
    ab.appendAll cs =
      ({ chunks := ab.chunks ++ cs,
         totalSize := ab.totalSize + (cs.map List.length).sum,
         maxSize := ab.maxSize }, true) := by
  induction cs with
  | nil => intro ab h; simp [AudioBuffer.appendAll]
  | cons c cs ih =>
    intro ab h
    simp only [List.map_cons, List.sum_cons] at h
    have hfit : ¬ (ab.totalSize + c.length > ab.maxSize) := by omega
    simp only [AudioBuffer.appendAll, AudioBuffer.append, if_neg hfit]
    have h2 : ab.totalSize + c.length + (List.map List.length cs).sum ≤ ab.maxSize := by omega
    rw [ih { chunks := ab.chunks ++ [c], totalSize := ab.totalSize + c.length,
             maxSize := ab.maxSize } h2,
        List.append_assoc, Nat.add_assoc]
    simp

/-- Go `messages.Media` (messages/server.go:23-25). -/
structure MediaPayload where
  payload : String
  deriving Repr, DecidableEq

/-- Go `messages.TwilioMessageBack` (messages/server.go:33-37): the
outbound telephony media-frame envelope. -/
structure TwilioMessageBack where
  event : String
  streamSid : String
  media : MediaPayload
  deriving Repr, DecidableEq

/-- The payload variants of Go `messages.ServerMessage`
(messages/server.go:40-60), as a tagged union. -/
inductive ServerPayload where
  | audio (data mimeType : String)
  | text (text : String)
  | status (status message : String)
  | error (code message : String)
  deriving Repr, DecidableEq

/-- Go `messages.ServerMessage` (messages/server.go:27-31). -/
structure ServerMessage where
  type : String
  sessionId : String
  payload : ServerPayload
  deriving Repr, DecidableEq

/-- Go `messages.ErrCodeInvalidMessage` (messages/server.go:5). -/
def ErrCodeInvalidMessage : String := "INVALID_MESSAGE"

/-- Go `messages.ErrCodeGeminiError` (messages/server.go:6). -/
def ErrCodeGeminiError : String := "GEMINI_ERROR"

/-- Go `messages.ErrCodeBufferFull` (messages/server.go:10). -/
def ErrCodeBufferFull : String := "BUFFER_FULL"

/-- Go `messages.NewTwilioMessageBack` (messages/server.go:62-68). -/
def NewTwilioMessageBack (streamSid : String) (data : String) : TwilioMessageBack :=
  { event := "media", streamSid := streamSid, media := { payload := data } }

/-- Go `messages.NewAudioMessage` (messages/server.go:71-80). -/
def NewAudioMessage (sessionID data : String) : ServerMessage :=
  { type := "audio", sessionId := sessionID,
    payload := .audio data "audio/pcm;rate=24000" }

/-- Go `messages.NewTextMessage` (messages/server.go:83-91). -/
def NewTextMessage (sessionID text : String) : ServerMessage :=
  { type := "text", sessionId := sessionID, payload := .text text }

/-- Go `messages.NewStatusMessage` (messages/server.go:94-103). -/
def NewStatusMessage (sessionID status message : String) : ServerMessage :=
  { type := "status", sessionId := sessionID, payload := .status status message }

/-- Go `messages.NewErrorMessage` (messages/server.go:106-115). -/
def NewErrorMessage (sessionID code message : String) : ServerMessage :=
  { type := "error", sessionId := sessionID, payload := .error code message }

/-- The standard base64 alphabet (model of Go `encoding/base64.StdEncoding`). -/
def base64Alphabet : List Char :=
  "ABCDEFGHIJKLMNOPQRSTUVWXYZabcdefghijklmnopqrstuvwxyz0123456789+/".toList

/-- The base64 digit for a 6-bit value. -/
def base64Char (n : Nat) : Char := base64Alphabet.getD n 'A'

/-- RFC 4648 base64 of a byte sequence, as a character list (model of the
Go standard library's `base64.StdEncoding.EncodeToString`; library code,
not repository code). -/
def base64EncodeChars : List Nat → List Char
  | [] => []
  | [b1] =>
    [base64Char ((b1 % 256) >>> 2), base64Char (((b1 % 256) &&& 0x03) <<< 4), '=', '=']
  | [b1, b2] =>
    [base64Char ((b1 % 256) >>> 2),
     base64Char ((((b1 % 256) &&& 0x03) <<< 4) ||| ((b2 % 256) >>> 4)),
     base64Char (((b2 % 256) &&& 0x0F) <<< 2), '=']
  | b1 :: b2 :: b3 :: rest =>
    [base64Char ((b1 % 256) >>> 2),
     base64Char ((((b1 % 256) &&& 0x03) <<< 4) ||| ((b2 % 256) >>> 4)),
     base64Char ((((b2 % 256) &&& 0x0F) <<< 2) ||| ((b3 % 256) >>> 6)),
     base64Char ((b3 % 256) &&& 0x3F)] ++ base64EncodeChars rest

/-- RFC 4648 base64 of a byte sequence, as a string. -/
def base64Encode (bs : List Nat) : String := String.mk (base64EncodeChars bs)

example : base64Encode [77, 97, 110] = "TWFu" := by decide
example : base64Encode [77, 97] = "TWE=" := by decide
example : base64Encode [77] = "TQ==" := by decide

/-- Go `session.muLawToPCMUpsample` (part_001:401-415): each mu-law byte
becomes one decoded 16-bit sample, written twice in little-endian order
(zero-order-hold 8 kHz → 16 kHz upsampling), i.e. 4 output bytes per
input byte. -/
def muLawToPCMUpsample (muLawData : List Nat) : List Nat :=
  muLawData.flatMap fun b =>
    let v := toUInt16 (muLawToPcmTable b)
    [v &&& 0xFF, v >>> 8, v &&& 0xFF, v >>> 8]

/-- Go `int16(binary.LittleEndian.Uint16(...))` on two consecutive
bytes: the 16-bit little-endian value, reinterpreted as `int16`. -/
def int16OfLE (lo hi : Nat) : Int :=
  toInt16 (Int.ofNat ((lo % 256) ||| ((hi % 256) <<< 8)))

/-- The downsampling loop of the Twilio `OnAudioRaw` callback
(part_001:154-164): `for i := 0; i < sampleCount; i += 3`, reading the
16-bit little-endian sample at byte offset `2*i` and mu-law-encoding it.
The inner `offset+1 >= len(pcmData)` break mirrors the Go guard.  The
first argument bounds the number of remaining loop iterations so the
recursion is structural; any bound of at least `sampleCount - i`
iterations gives the loop's exact behaviour
(`downsampleLoop_getElem`). -/
def downsampleLoop (pcm : List Nat) (sampleCount : Nat) : Nat → Nat → List Nat
  | 0, _ => []
  | fuel + 1, i =>
    if i < sampleCount then
      let offset := i * 2
      if offset + 1 ≥ pcm.length then []
      else
        PcmToMuLawByte (int16OfLE (pcm.getD offset 0) (pcm.getD (offset + 1) 0)) ::
          downsampleLoop pcm sampleCount fuel (i + 3)
    else []

/-- The 24 kHz → 8 kHz decimate-and-encode conversion of the Twilio
`OnAudioRaw` callback (part_001:154-164): take every third 16-bit
little-endian sample and mu-law-encode each one. -/
def downsample24To8MuLaw (pcm : List Nat) : List Nat :=
  downsampleLoop pcm (pcm.length / 2) (pcm.length / 2) 0

example : downsample24To8MuLaw [0, 0, 1, 1, 2, 2, 3, 3, 4, 4, 5, 5, 6, 6] =
    [PcmToMuLawByte (int16OfLE 0 0), PcmToMuLawByte (int16OfLE 3 3), PcmToMuLawByte (int16OfLE 6 6)] := by
  decide

/-- The observable actions a session handler can take: diagnostic log
lines, enqueueing an outbound message (`queueMessage`), and calls into
the Gemini proxy collaborator. -/
inductive Effect where
  | logLine
  | queueServer (m : ServerMessage)
  | queueTwilio (m : TwilioMessageBack)
  | sendAudioGemini (bytes : List Nat)
  | sendAudioBatchGemini (bytes : List Nat)
  deriving Repr, DecidableEq

/-- What the read loop does after handling one frame: keep looping, or
return (ending the loop and triggering session teardown). -/
inductive LoopAction where
  | cont
  | stop
  deriving Repr, DecidableEq

/-- The mutable session state the Twilio read loop and the Gemini
callbacks touch: the stream SID (empty until a `start` event) and the
session's audio buffer (never used by the Twilio paths, carried to
express that). -/
structure TwilioState where
  streamSid : String
  buffer : AudioBuffer
  deriving Repr, DecidableEq

/-- The shape of the `media.payload` field of a Twilio `media` event
after JSON parsing and base64 decoding: missing `media`/`payload`
object, undecodable base64, or the decoded mu-law bytes. -/
inductive TwilioMediaShape where
  | missing
  | badBase64
  | ok (bytes : List Nat)
  deriving Repr, DecidableEq

/-- One inbound Twilio WebSocket frame, after the JSON-level parse
performed at part_001:328-337: unparseable JSON, a JSON object without
an `event` string, or one of the typed events.  `start` carries the
`start.streamSid` field (`none`: missing `start` object; `some none`:
missing `streamSid`; `some (some sid)`: present). -/
inductive TwilioEvent where
  | badJson
  | missingEvent
  | connected
  | start (sid : Option (Option String))
  | media (p : TwilioMediaShape)
  | stop
  | mark
  | unknown (e : String)
  deriving Repr, DecidableEq

/-- The event dispatch of Go `handleClientMessagesFromTwilio`
(part_001:309-398), one iteration: given the current state and one
parsed frame, the new state, the effects performed, and whether the
loop continues.  Mirrors the Go `switch` case by case; note that the
`media` case performs no stream-id check and no buffering — it decodes,
upsamples and forwards to Gemini unconditionally. -/
def handleTwilioEvent (st : TwilioState) : TwilioEvent → TwilioState × List Effect × LoopAction
  | .badJson => (st, [.logLine], .cont)
  | .missingEvent => (st, [.logLine], .cont)
  | .connected => (st, [.logLine], .cont)
  | .start none => (st, [.logLine], .cont)
  | .start (some none) => (st, [.logLine], .cont)
  | .start (some (some sid)) => ({ st with streamSid := sid }, [.logLine], .cont)
  | .media .missing => (st, [], .cont)
  | .media .badBase64 => (st, [.logLine], .cont)
  | .media (.ok bytes) => (st, [.sendAudioGemini (muLawToPCMUpsample bytes)], .cont)
  | .stop => (st, [.logLine], .stop)
  | .mark => (st, [.logLine], .cont)
  | .unknown _ => (st, [.logLine], .cont)

/-- The base64 audio data delivered by the Gemini `OnAudioRaw` callback,
after the decode attempt at part_001:148-152. -/
inductive GeminiAudioShape where
  | badBase64
  | ok (pcm : List Nat)
  deriving Repr, DecidableEq

/-- The Twilio-session Gemini `OnAudioRaw` callback
(`setupTwilioGeminiCallbacks`, part_001:137-169): if no StreamSid is set
yet, log and drop; if the base64 payload is undecodable, log and drop;
otherwise downsample 24 kHz → 8 kHz, mu-law-encode, and enqueue the
telephony media frame. -/
def twilioOnAudioRaw (st : TwilioState) : GeminiAudioShape → List Effect
  | sh =>
    if st.streamSid = "" then [.logLine]
    else match sh with
      | .badBase64 => [.logLine]
      | .ok pcm =>
        [.queueTwilio (NewTwilioMessageBack st.streamSid
          (base64Encode (downsample24To8MuLaw pcm)))]

/-- The shape of an `audio` / `audio_binary` payload after the two
decode attempts of `processClientMessage` (part_001:456-488):
un-unmarshalable payload JSON, undecodable base64 `data`, or the
decoded audio bytes. -/
inductive AudioPayloadShape where
  | badPayload
  | badBase64
  | ok (bytes : List Nat)
  deriving Repr, DecidableEq

/-- The shape of a `control` payload (part_001:489-495):
un-unmarshalable payload JSON or an action string. -/
inductive ControlPayloadShape where
  | badPayload
  | action (a : String)
  deriving Repr, DecidableEq

/-- One inbound browser-mode text frame after the JSON parse of
`handleClientMessages` (part_001:444-449): unparseable JSON, or a
`ClientMessage` with one of the dispatched `type` tags
(`processClientMessage`, part_001:456-500). -/
inductive ClientFrame where
  | badJson
  | audio (p : AudioPayloadShape)
  | audioBinary (p : AudioPayloadShape)
  | control (p : ControlPayloadShape)
  | other (t : String)
  deriving Repr, DecidableEq

/-- Go `(*ClientSession).handleEndTurn` (part_001:515-531): log and
ignore when the buffer is empty, otherwise flush it and send the batch
to Gemini. -/
def handleEndTurn (buf : AudioBuffer) : AudioBuffer × List Effect :=
  if buf.isEmpty then (buf, [.logLine])
  else
    let r := buf.flush
    (r.2, [.logLine, .sendAudioBatchGemini (r.1.getD [])])

/-- One iteration of the browser-mode text-frame handling: the JSON
parse of `handleClientMessages` (part_001:444-451) followed by
`processClientMessage` (part_001:456-500) and, for control frames,
`handleControlMessage` (part_001:502-512).  Returns the new buffer, the
effects, and the loop action — every branch of the Go code falls
through to the next loop iteration, so the action is always `cont`.
Note the `audio_binary` branches: an un-unmarshalable payload, a bad
base64 `data` and a failed `Append` all return without an error message
and without a log line. -/
def processClientFrame (id : String) (buf : AudioBuffer) :
    ClientFrame → AudioBuffer × List Effect × LoopAction
  | .badJson =>
    (buf, [.queueServer (NewErrorMessage id ErrCodeInvalidMessage "Invalid message format")], .cont)
  | .audio .badPayload =>
    (buf, [.queueServer (NewErrorMessage id ErrCodeInvalidMessage "Invalid audio payload")], .cont)
  | .audio .badBase64 =>
    (buf, [.queueServer (NewErrorMessage id ErrCodeInvalidMessage "Invalid base64 audio data")], .cont)
  | .audio (.ok bytes) =>
    let r := buf.append bytes
    match r.2 with
    | .ok _ => (r.1, [.logLine], .cont)
    | .error _ =>
      (r.1, [.logLine, .queueServer (NewErrorMessage id ErrCodeBufferFull
        ("Audio buffer full (max " ++ toString buf.maxSize ++ " bytes)"))], .cont)
  | .audioBinary .badPayload => (buf, [], .cont)
  | .audioBinary .badBase64 => (buf, [], .cont)
  | .audioBinary (.ok bytes) => ((buf.append bytes).1, [], .cont)
  | .control .badPayload =>
    (buf, [.queueServer (NewErrorMessage id ErrCodeInvalidMessage "Invalid control payload")], .cont)
  | .control (.action a) =>
    if a = "ping" then (buf, [.queueServer (NewStatusMessage id "pong" "")], .cont)
    else if a = "end_turn" then
      let r := handleEndTurn buf
      (r.1, r.2, .cont)
    else
      (buf, [.queueServer (NewErrorMessage id ErrCodeInvalidMessage
        ("Unknown control action: " ++ a))], .cont)
  | .other t =>
    (buf, [.queueServer (NewErrorMessage id ErrCodeInvalidMessage
      ("Unknown message type: " ++ t))], .cont)

/-- The malformed inbound browser-mode frames enumerated by the spec:
unparseable JSON, invalid payload shape, undecodable base64 audio data,
and unknown message type or control action. -/
def isMalformedFrame : ClientFrame → Bool
  | .badJson => true
  | .audio .badPayload => true
  | .audio .badBase64 => true
  | .audio (.ok _) => false
  | .audioBinary .badPayload => true
  | .audioBinary .badBase64 => true
  | .audioBinary (.ok _) => false
  | .control .badPayload => true
  | .control (.action a) => !(a = "ping" || a = "end_turn")
  | .other _ => true

/-- The malformed `audio_binary` frames (the silently-dropped cases). -/
def isMalformedAudioBinary : ClientFrame → Bool
  | .audioBinary .badPayload => true
  | .audioBinary .badBase64 => true
  | _ => false

/-- An effect that reports a problem: an enqueued error envelope to the
client, or at least a diagnostic log line. -/
def isReportEffect : Effect → Bool
  | .logLine => true
  | .queueServer m => m.type = "error"
  | _ => false

/-- Whether a handler's effect list reports the error (error envelope or
diagnostic trace). -/
def reportsError (effs : List Effect) : Bool := effs.any isReportEffect

/-- Whether a handler's effect list forwards audio to the AI service. -/
def forwardsAudioToGemini (effs : List Effect) : Bool :=
  effs.any fun e =>
    match e with
    | .sendAudioGemini _ => true
    | .sendAudioBatchGemini _ => true
    | _ => false

/-- Whether a handler's effect list enqueues an outbound telephony
media frame. -/
def producesTwilioFrame (effs : List Effect) : Bool :=
  effs.any fun e =>
    match e with
    | .queueTwilio _ => true
    | _ => false

/-- The per-session registry entry fields the Manager claims touch:
last-activity time (an absolute instant, modelled as `Int`). -/
structure SessionData where
  lastActivity : Int
  deriving Repr, DecidableEq

/-- Go `session.Manager` (session/manager.go:19-25) restricted to the
fields the claims are about: the id → session registry (a Go map,
modelled as an association list with unique keys maintained by map-style
insertion) and the `MaxSessions` / `SessionTimeout` configuration.  The
`sync.RWMutex` serializes the operations; the Redis mirror is
best-effort observability and has no effect on the registry. -/
structure Manager where
  sessions : List (String × SessionData)
  maxSessions : Nat
  sessionTimeout : Int
  deriving Repr, DecidableEq

/-- Go map insertion `sm.sessions[sessionID] = session`
(`storeSession`, session/manager.go:106-119): replace the entry with the
same key if present, otherwise add a new one. -/
def insertSession (l : List (String × SessionData)) (id : String) (s : SessionData) :
    List (String × SessionData) :=
  if l.any (fun p => p.1 = id) then l.map (fun p => if p.1 = id then (id, s) else p)
  else l ++ [(id, s)]

/-- Go `(*Manager).CreateSession` (session/manager.go:66-83): fail with
"maximum sessions reached" when the registry already holds
`MaxSessions` entries; otherwise construct the session (which may itself
fail — `newSession` is the outcome of `NewClientSession`, an external
collaborator) and store it under the fresh id.  On either error the
registry is returned unchanged (the Go method returns before
`storeSession`). -/
def Manager.createSession (sm : Manager) (newId : String)
    (newSession : Except String SessionData) : Manager × Except String Unit :=
  if sm.sessions.length ≥ sm.maxSessions then (sm, .error "maximum sessions reached")
  else
    match newSession with
    | .error e => (sm, .error e)
    | .ok s => ({ sm with sessions := insertSession sm.sessions newId s }, .ok ())

/-- Go `(*Manager).GetSession` (session/manager.go:122-128). -/
def Manager.getSession (sm : Manager) (id : String) : Option SessionData :=
  (sm.sessions.find? (fun p => p.1 = id)).map Prod.snd

/-- Go `(*Manager).RemoveSession` (session/manager.go:131-149): close the
session if present and delete its registry entry; absence is not an
error (the Go method returns `nil` either way). -/
def Manager.removeSession (sm : Manager) (id : String) : Manager :=
  { sm with sessions := sm.sessions.filter (fun p => p.1 ≠ id) }

/-- The scan of Go `(*Manager).CleanupInactiveSessions`
(session/manager.go:159-175): walk the registry once; every session with
`now.Sub(LastActivity) > SessionTimeout` is closed and deleted, every
other session is kept.  Returns the surviving entries and the ids of the
sessions that were closed and removed. -/
def cleanupScan (now timeout : Int) :
    List (String × SessionData) → List (String × SessionData) × List String
  | [] => ([], [])
  | p :: rest =>
    let r := cleanupScan now timeout rest
    if now - p.2.lastActivity > timeout then (r.1, p.1 :: r.2)
    else (p :: r.1, r.2)

/-- Go `(*Manager).CleanupInactiveSessions` (session/manager.go:159-175),
at scan time `now`. -/
def Manager.cleanupInactiveSessions (sm : Manager) (now : Int) : Manager × List String :=
  let r := cleanupScan now sm.sessionTimeout sm.sessions
  ({ sm with sessions := r.1 }, r.2)

/-- Go `(*Manager).Shutdown` (session/manager.go:193-205): close every
session and empty the registry. -/
def Manager.shutdown (sm : Manager) : Manager :=
  { sm with sessions := [] }

/-- The surviving entries of the cleanup scan are exactly the entries
whose inactivity age is within the timeout, in order, and the closed ids
are exactly the other entries' ids, in order. -/
lemma cleanupScan_eq (now timeout : Int) (l : List (String × SessionData)) :
    cleanupScan now timeout l =
      (l.filter (fun p => decide (now - p.2.lastActivity ≤ timeout)),
       (l.filter (fun p => decide (now - p.2.lastActivity > timeout))).map Prod.fst) := by
  induction l with
  | nil => rfl
  | cons p rest ih =>
    by_cases h : now - p.2.lastActivity > timeout
    · have h2 : ¬ (now ≤ timeout + p.2.lastActivity) := by omega
      simp [cleanupScan, ih, List.filter_cons, h, h2]
    · have h2 : now ≤ timeout + p.2.lastActivity := by omega
      simp [cleanupScan, ih, List.filter_cons, h, h2]

/-- `muLawToPCMUpsample` produces exactly 4 output bytes per input byte. -/
lemma muLawToPCMUpsample_length (l : List Nat) :
    (muLawToPCMUpsample l).length = 4 * l.length := by
  induction l with
  | nil => rfl
  | cons b rest ih =>
    simp only [muLawToPCMUpsample, List.flatMap_cons, List.length_append] at ih ⊢
    simp only [List.length_cons, List.length_nil]
    omega

/-- The 4 output bytes at offset `4*i` of `muLawToPCMUpsample` are the
two little-endian copies of the decoded sample of input byte `i`. -/
lemma muLawToPCMUpsample_quad (l : List Nat) :
    ∀ i, i < l.length →
      ((muLawToPCMUpsample l).drop (4 * i)).take 4 =
        (let v := toUInt16 (muLawToPcmTable (l.getD i 0))
         [v &&& 0xFF, v >>> 8, v &&& 0xFF, v >>> 8]) := by
  induction l with
  | nil => intro i hi; simp at hi
  | cons b rest ih =>
    intro i hi
    cases i with
    | zero => rfl
    | succ i =>
      have harith : 4 * (i + 1) = 4 * i + 1 + 1 + 1 + 1 := by ring
      simp only [muLawToPCMUpsample, List.flatMap_cons, List.cons_append, List.nil_append,
        harith, List.drop_succ_cons]
      have hrest : i < rest.length := by simpa using hi
      simpa [muLawToPCMUpsample] using ih i hrest

/-- Exact behaviour of the downsampling loop: provided the iteration
bound covers the remaining samples and `sampleCount` fits in the data,
output element `k` is the encoded sample at input index `i + 3*k`. -/
lemma downsampleLoop_getElem (pcm : List Nat) (count : Nat) (hc : 2 * count ≤ pcm.length) :
    ∀ (fuel k i : Nat), count ≤ fuel + i →
      (downsampleLoop pcm count fuel i).get? k =
        (if i + 3 * k < count then
          some (PcmToMuLawByte (int16OfLE (pcm.getD ((i + 3 * k) * 2) 0)
            (pcm.getD ((i + 3 * k) * 2 + 1) 0)))
         else none) := by
  intro fuel
  induction fuel with
  | zero =>
    intro k i h
    have : ¬ (i + 3 * k < count) := by omega
    simp [downsampleLoop, this]
  | succ fuel ih =>
    intro k i h
    by_cases hi : i < count
    · have hguard : ¬ (i * 2 + 1 ≥ pcm.length) := by omega
      cases k with
      | zero =>
        simp [downsampleLoop, hi, hguard]
      | succ k =>
        have hstep : count ≤ fuel + (i + 3) := by omega
        have harith : i + 3 + 3 * k = i + 3 * (k + 1) := by ring
        simp only [downsampleLoop, if_pos hi, if_neg hguard, List.get?_cons_succ]
        rw [ih k (i + 3) hstep, harith]
    · have : ¬ (i + 3 * k < count) := by omega
      simp [downsampleLoop, hi, this]

/-- Claim C1: for every sequence of `Append` calls whose chunks' total
length is at most `maxSize`, every `Append` succeeds and a subsequent
`Flush` returns exactly the byte-for-byte concatenation of the chunks in
append order (absent for an empty sequence) and leaves the buffer empty;
any `Append` whose chunk would make the total exceed `maxSize` returns
the buffer-full error and leaves the buffer (chunks and total-size
counter) unchanged; `Flush` on an empty buffer returns an absent result,
not an error. -/
theorem claim_C1_audioBuffer_append_flush (maxSize : Nat) (chunks : List (List Nat))
    (h : (chunks.map List.length).sum ≤ maxSize) :
    ((NewAudioBuffer maxSize).appendAll chunks).2 = true ∧
    ((NewAudioBuffer maxSize).appendAll chunks).1.flush.1
      = (if chunks.isEmpty then none else some chunks.flatten) ∧
    ((NewAudioBuffer maxSize).appendAll chunks).1.flush.2.chunks = [] ∧
    ((NewAudioBuffer maxSize).appendAll chunks).1.flush.2.totalSize = 0 ∧
    (∀ (ab : AudioBuffer) (chunk : List Nat), ab.totalSize + chunk.length > ab.maxSize →
       ab.append chunk = (ab, .error "audio buffer full")) ∧
    (∀ n : Nat, (NewAudioBuffer n).flush = (none, NewAudioBuffer n)) := by
  have hmain := appendAll_ok chunks (NewAudioBuffer maxSize) (by simpa [NewAudioBuffer] using h)
  rw [hmain]
  refine ⟨rfl, ?_, ?_, ?_, ?_, ?_⟩
  · simp only [NewAudioBuffer, List.nil_append, Nat.zero_add]
    by_cases hch : chunks = []
    · subst hch; rfl
    · have hlen : ¬ (chunks.length = 0) := by simpa [List.length_eq_zero] using hch
      simp [AudioBuffer.flush, hlen, hch]
  · simp only [NewAudioBuffer, List.nil_append, Nat.zero_add]
    by_cases hch : chunks = []
    · subst hch; rfl
    · have hlen : ¬ (chunks.length = 0) := by simpa [List.length_eq_zero] using hch
      simp [AudioBuffer.flush, hlen]
  · simp only [NewAudioBuffer, List.nil_append, Nat.zero_add]
    by_cases hch : chunks = []
    · subst hch; rfl
    · have hlen : ¬ (chunks.length = 0) := by simpa [List.length_eq_zero] using hch
      simp [AudioBuffer.flush, hlen]
  · intro ab chunk hover
    simp [AudioBuffer.append, hover]
  · intro n; rfl

/-- A concrete run of claim C1: three chunks totalling 5 ≤ 8 bytes all
append, flush returns their concatenation. -/
theorem claim_C1_witness :
    ((NewAudioBuffer 8).appendAll [[1, 2], [3], [4, 5]]).2 = true ∧
    ((NewAudioBuffer 8).appendAll [[1, 2], [3], [4, 5]]).1.flush.1
      = (if ([[1, 2], [3], [4, 5]] : List (List Nat)).isEmpty then none
         else some ([[1, 2], [3], [4, 5]] : List (List Nat)).flatten) := by
  have hc := claim_C1_audioBuffer_append_flush 8 [[1, 2], [3], [4, 5]] (by decide)
  exact ⟨hc.1, hc.2.1⟩

/-- Claim C2: for every byte value 0-255, the mu-law decoder returns the
value of the canonical G.711 mu-law reference table at that byte; in
particular byte 0xFF decodes to PCM value 0. -/
theorem claim_C2_decode_matches_reference_table :
    (∀ b : Fin 256, muLawReferenceTable.get? b.val = some (decodeMuLawByte b.val)) ∧
    decodeMuLawByte 0xFF = 0 := by decide

/-- Counterexample to claim C3 as stated: at the in-range PCM sample
x = -1, `encode(decode(encode(x)))` is 0xFF while `encode(x)` is 0x7F
(the negative-zero byte decodes to 0, which re-encodes to 0xFF). -/
theorem claim_C3_counterexample :
    (-32768 ≤ (-1 : Int) ∧ (-1 : Int) ≤ 32767) ∧
    PcmToMuLawByte (decodeMuLawByte (PcmToMuLawByte (-1))) ≠ PcmToMuLawByte (-1) := by
  decide

/-- Claim C3 (amended): for every 16-bit PCM sample x whose encoding is
not the negative-zero byte 0x7F, `encode(decode(encode(x))) = encode(x)`.
(The excluded samples are exactly those with `encode(x) = 0x7F`, namely
-1, -2, -3 and -32768; there `encode(decode(encode(x)))` is 0xFF.) -/
theorem claim_C3_encode_idempotent_amended (x : Int) (_h1 : -32768 ≤ x) (_h2 : x ≤ 32767)
    (h3 : PcmToMuLawByte x ≠ 127) :
    PcmToMuLawByte (decodeMuLawByte (PcmToMuLawByte x)) = PcmToMuLawByte x :=
  encode_decode_eq_of_ne _ (PcmToMuLawByte_lt x) h3

/-- A concrete instance of amended claim C3 at x = 1000. -/
theorem claim_C3_witness :
    PcmToMuLawByte (decodeMuLawByte (PcmToMuLawByte 1000)) = PcmToMuLawByte 1000 :=
  claim_C3_encode_idempotent_amended 1000 (by decide) (by decide) (by decide)

/-- Claim C10: for every mu-law byte b other than 0x7F, re-encoding the
decoded sample reproduces b exactly; for b = 0x7F the re-encoding yields
0xFF (both 0x7F and 0xFF decode to 0), so the decoder is injective on
all byte values except that one collapsed pair. -/
theorem claim_C10_decode_section (b : Nat) (hb : b < 256) :
    (b ≠ 127 → PcmToMuLawByte (decodeMuLawByte b) = b) ∧
    (b = 127 → PcmToMuLawByte (decodeMuLawByte b) = 255) ∧
    decodeMuLawByte 127 = 0 ∧ decodeMuLawByte 255 = 0 ∧
    (∀ b2 : Nat, b2 < 256 → decodeMuLawByte b = decodeMuLawByte b2 →
      b = b2 ∨ (b = 127 ∧ b2 = 255) ∨ (b = 255 ∧ b2 = 127)) := by
  refine ⟨encode_decode_eq_of_ne b hb, ?_, by decide, by decide, ?_⟩
  · intro hb7; subst hb7; decide
  · intro b2 hb2 heq
    by_cases h1 : b = 127
    · subst h1
      have hz : decodeMuLawByte b2 = 0 := by
        rw [← heq]; decide
      rcases (decode_eq_zero_iff b2 hb2).mp hz with h | h
      · exact Or.inl h.symm
      · exact Or.inr (Or.inl ⟨rfl, h⟩)
    · by_cases h2 : b2 = 127
      · subst h2
        have hz : decodeMuLawByte b = 0 := by rw [heq]; decide
        rcases (decode_eq_zero_iff b hb).mp hz with h | h
        · exact absurd h h1
        · exact Or.inr (Or.inr ⟨h, rfl⟩)
      · left
        have e1 := encode_decode_eq_of_ne b hb h1
        have e2 := encode_decode_eq_of_ne b2 hb2 h2
        rw [← e1, ← e2, heq]

/-- A concrete instance of claim C10 at b = 0x25. -/
theorem claim_C10_witness :
    PcmToMuLawByte (decodeMuLawByte 37) = 37 :=
  (claim_C10_decode_section 37 (by decide)).1 (by decide)

/-- Counterexample to claim C4 as stated: a `media` frame processed
before any `start` (stream id still empty) has its audio forwarded to
the AI service — the `media` handler performs no stream-id check, so the
frame is not dropped. -/
theorem claim_C4_counterexample :
    ({ streamSid := "", buffer := NewAudioBuffer 100 } : TwilioState).streamSid = "" ∧
    forwardsAudioToGemini
      (handleTwilioEvent { streamSid := "", buffer := NewAudioBuffer 100 }
        (.media (.ok [255]))).2.1 = true :=
  ⟨rfl, rfl⟩

/-- Claim C4 (amended): a telephony `media` event processed before any
`start` (stream id empty) does not crash the session: the handler
continues the loop, leaves the state unchanged, and produces no outbound
telephony media frame (the Gemini audio callback drops its audio with
only a log line while the stream id is empty) — but the frame is NOT
dropped: its audio is decoded, upsampled and forwarded to the AI
service, since the `media` handler never consults the stream id. -/
theorem claim_C4_media_before_start_amended (st : TwilioState) (h : st.streamSid = "")
    (bytes : List Nat) :
    handleTwilioEvent st (.media (.ok bytes)) =
      (st, [.sendAudioGemini (muLawToPCMUpsample bytes)], .cont) ∧
    producesTwilioFrame (handleTwilioEvent st (.media (.ok bytes))).2.1 = false ∧
    forwardsAudioToGemini (handleTwilioEvent st (.media (.ok bytes))).2.1 = true ∧
    (∀ sh : GeminiAudioShape, twilioOnAudioRaw st sh = [.logLine]) ∧
    producesTwilioFrame (twilioOnAudioRaw st (.ok bytes)) = false := by
  refine ⟨rfl, rfl, rfl, ?_, ?_⟩
  · intro sh
    simp [twilioOnAudioRaw, h]
  · simp [twilioOnAudioRaw, h, producesTwilioFrame]

/-- A concrete instance of amended claim C4. -/
theorem claim_C4_witness :
    producesTwilioFrame
      (twilioOnAudioRaw { streamSid := "", buffer := NewAudioBuffer 8 } (.ok [1, 2])) = false :=
  (claim_C4_media_before_start_amended { streamSid := "", buffer := NewAudioBuffer 8 }
    rfl [1, 2]).2.2.2.2

/-- Counterexample to claim C5 as stated: an `audio_binary` frame with
an invalid payload is malformed, yet the handler emits no effect at all
— no error envelope and no diagnostic trace; the error is silently
discarded. -/
theorem claim_C5_counterexample :
    isMalformedFrame (.audioBinary .badPayload) = true ∧
    (processClientFrame "sid" (NewAudioBuffer 10) (.audioBinary .badPayload)).2.1 = [] ∧
    reportsError (processClientFrame "sid" (NewAudioBuffer 10)
      (.audioBinary .badPayload)).2.1 = false :=
  ⟨rfl, rfl, rfl⟩

/-- Claim C5 (amended): every malformed browser-mode frame other than
the malformed `audio_binary` cases is reported — the handler enqueues an
error envelope or at least logs — and the read loop continues; the
malformed `audio_binary` cases (invalid payload shape, undecodable
base64) are silently dropped with no effect at all, the loop still
continuing. -/
theorem claim_C5_malformed_frames_amended (id : String) (buf : AudioBuffer) (f : ClientFrame)
    (h : isMalformedFrame f = true) :
    (isMalformedAudioBinary f = false →
       reportsError (processClientFrame id buf f).2.1 = true) ∧
    (isMalformedAudioBinary f = true → (processClientFrame id buf f).2.1 = []) ∧
    (processClientFrame id buf f).2.2 = .cont := by
  cases f with
  | badJson => exact ⟨fun _ => rfl, by intro hh; simp [isMalformedAudioBinary] at hh, rfl⟩
  | audio p =>
    cases p with
    | badPayload => exact ⟨fun _ => rfl, by intro hh; simp [isMalformedAudioBinary] at hh, rfl⟩
    | badBase64 => exact ⟨fun _ => rfl, by intro hh; simp [isMalformedAudioBinary] at hh, rfl⟩
    | ok bytes => simp [isMalformedFrame] at h
  | audioBinary p =>
    cases p with
    | badPayload => exact ⟨by intro hh; simp [isMalformedAudioBinary] at hh, fun _ => rfl, rfl⟩
    | badBase64 => exact ⟨by intro hh; simp [isMalformedAudioBinary] at hh, fun _ => rfl, rfl⟩
    | ok bytes => simp [isMalformedFrame] at h
  | control p =>
    cases p with
    | badPayload => exact ⟨fun _ => rfl, by intro hh; simp [isMalformedAudioBinary] at hh, rfl⟩
    | action a =>
      simp only [isMalformedFrame, Bool.not_eq_true', decide_eq_false_iff_not] at h
      have hp : ¬ (a = "ping") := by
        intro hc; subst hc; simp at h
      have he : ¬ (a = "end_turn") := by
        intro hc; subst hc; simp at h
      refine ⟨fun _ => ?_, by intro hh; simp [isMalformedAudioBinary] at hh, ?_⟩
      · simp [processClientFrame, hp, he, reportsError, isReportEffect, NewErrorMessage]
      · simp [processClientFrame, hp, he]
  | other t => exact ⟨fun _ => rfl, by intro hh; simp [isMalformedAudioBinary] at hh, rfl⟩

/-- A concrete instance of amended claim C5: unparseable JSON is
reported to the client. -/
theorem claim_C5_witness :
    reportsError (processClientFrame "s" (NewAudioBuffer 4) .badJson).2.1 = true :=
  (claim_C5_malformed_frames_amended "s" (NewAudioBuffer 4) .badJson rfl).1 rfl

/-- Claim C6: for a telephony `media` payload of N mu-law bytes, the
conversion sent to the AI service is exactly 4×N bytes in which, for
every input index i, output bytes 4i..4i+3 are two consecutive
little-endian copies of the decoded 16-bit sample of input byte i
(zero-order-hold upsampling); the handler forwards it immediately as a
single streaming `SendAudio` call — no end-of-turn signal, no buffering,
state unchanged. -/
theorem claim_C6_media_upsample_forward (bytes : List Nat) :
    (muLawToPCMUpsample bytes).length = 4 * bytes.length ∧
    (∀ i, i < bytes.length →
      ((muLawToPCMUpsample bytes).drop (4 * i)).take 4 =
        (let v := toUInt16 (muLawToPcmTable (bytes.getD i 0))
         [v &&& 0xFF, v >>> 8, v &&& 0xFF, v >>> 8])) ∧
    (∀ st : TwilioState, handleTwilioEvent st (.media (.ok bytes)) =
      (st, [.sendAudioGemini (muLawToPCMUpsample bytes)], .cont)) :=
  ⟨muLawToPCMUpsample_length bytes, muLawToPCMUpsample_quad bytes, fun _ => rfl⟩

/-- A concrete instance of claim C6 at input index 1 of a 2-byte payload. -/
theorem claim_C6_witness :
    ((muLawToPCMUpsample [255, 0]).drop (4 * 1)).take 4 =
      (let v := toUInt16 (muLawToPcmTable ([255, 0].getD 1 0))
       [v &&& 0xFF, v >>> 8, v &&& 0xFF, v >>> 8]) :=
  (claim_C6_media_upsample_forward [255, 0]).2.1 1 (by decide)

/-- Claim C7: for every AI-service audio chunk delivered to a telephony
session whose stream id is set, the enqueued outbound frame is the
telephony media-frame envelope with event "media" and that stream id,
whose payload is the base64 encoding of the sequence obtained by taking
every third 16-bit little-endian sample of the decoded 24 kHz PCM
(samples 0, 3, 6, ...) and mu-law-encoding each one. -/
theorem claim_C7_outbound_downsample_envelope (st : TwilioState) (h : st.streamSid ≠ "")
    (pcm : List Nat) :
    twilioOnAudioRaw st (.ok pcm) =
      [.queueTwilio { event := "media", streamSid := st.streamSid,
                      media := { payload := base64Encode (downsample24To8MuLaw pcm) } }] ∧
    (∀ k : Nat, (downsample24To8MuLaw pcm).get? k =
      (if 3 * k < pcm.length / 2 then
        some (PcmToMuLawByte (int16OfLE (pcm.getD (3 * k * 2) 0)
          (pcm.getD (3 * k * 2 + 1) 0)))
       else none)) := by
  constructor
  · simp [twilioOnAudioRaw, h, NewTwilioMessageBack]
  · intro k
    have hc : 2 * (pcm.length / 2) ≤ pcm.length := by omega
    have := downsampleLoop_getElem pcm (pcm.length / 2) hc (pcm.length / 2) k 0 (by omega)
    simpa [downsample24To8MuLaw] using this

/-- A concrete instance of claim C7: one 24 kHz sample comes back as one
enqueued media frame for stream "ST123". -/
theorem claim_C7_witness :
    twilioOnAudioRaw { streamSid := "ST123", buffer := NewAudioBuffer 4 } (.ok [10, 0]) =
      [.queueTwilio { event := "media", streamSid := "ST123",
                      media := { payload := base64Encode (downsample24To8MuLaw [10, 0]) } }] :=
  (claim_C7_outbound_downsample_envelope { streamSid := "ST123", buffer := NewAudioBuffer 4 }
    (by decide) [10, 0]).1

/-- `insertSession` (Go map store) grows the registry by at most one
entry. -/
lemma insertSession_length (l : List (String × SessionData)) (id : String) (s : SessionData) :
    (insertSession l id s).length ≤ l.length + 1 := by
  unfold insertSession
  split
  · simp
  · simp

/-- Claim C8: the registry never exceeds the configured cap: a
`CreateSession` call made while the registry already holds
`MaxSessions` fails with the capacity error and leaves the registry
unchanged; every successful creation keeps the registry at or below the
cap; and removal, cleanup and shutdown never grow the registry past
the cap. -/
theorem claim_C8_capacity_invariant (sm : Manager) :
    (sm.sessions.length = sm.maxSessions →
      ∀ (newId : String) (ns : Except String SessionData),
        sm.createSession newId ns = (sm, .error "maximum sessions reached")) ∧
    (∀ (newId : String) (ns : Except String SessionData),
      (sm.createSession newId ns).2 = .ok () →
        ((sm.createSession newId ns).1).sessions.length ≤ sm.maxSessions) ∧
    (∀ (newId : String) (ns : Except String SessionData),
      (sm.createSession newId ns).2 ≠ .ok () → (sm.createSession newId ns).1 = sm) ∧
    (sm.sessions.length ≤ sm.maxSessions →
      (∀ id : String, (sm.removeSession id).sessions.length ≤ sm.maxSessions) ∧
      (∀ now : Int, ((sm.cleanupInactiveSessions now).1).sessions.length ≤ sm.maxSessions) ∧
      sm.shutdown.sessions.length ≤ sm.maxSessions) := by
  refine ⟨?_, ?_, ?_, ?_⟩
  · intro hfull newId ns
    simp [Manager.createSession, hfull]
  · intro newId ns hok
    by_cases hge : sm.sessions.length ≥ sm.maxSessions
    · simp [Manager.createSession, hge] at hok
    · cases ns with
      | error e => simp [Manager.createSession, hge] at hok
      | ok s =>
        simp only [Manager.createSession, if_neg hge]
        have := insertSession_length sm.sessions newId s
        simp only [not_le] at hge
        exact le_trans this (by omega)
  · intro newId ns hne
    by_cases hge : sm.sessions.length ≥ sm.maxSessions
    · simp [Manager.createSession, hge]
    · cases ns with
      | error e => simp [Manager.createSession, hge]
      | ok s => simp [Manager.createSession, hge] at hne
  · intro hinv
    refine ⟨?_, ?_, ?_⟩
    · intro id
      exact le_trans (List.length_filter_le _ _) hinv
    · intro now
      simp only [Manager.cleanupInactiveSessions, cleanupScan_eq]
      exact le_trans (List.length_filter_le _ _) hinv
    · simp [Manager.shutdown]

/-- A concrete instance of claim C8: creation at a full registry fails
with the capacity error and leaves the registry unchanged. -/
theorem claim_C8_witness :
    ({ sessions := [("a", { lastActivity := 0 })], maxSessions := 1,
       sessionTimeout := 10 } : Manager).createSession "b" (.ok { lastActivity := 5 }) =
      ({ sessions := [("a", { lastActivity := 0 })], maxSessions := 1,
         sessionTimeout := 10 }, .error "maximum sessions reached") :=
  (claim_C8_capacity_invariant _).1 rfl "b" (.ok { lastActivity := 5 })

/-- Claim C9: after `CleanupInactiveSessions` at scan time `now`, every
remaining session has inactivity age at most the configured timeout;
exactly the sessions whose inactivity exceeds the timeout are closed
and removed (their ids are the returned closed list, in registry
order), and all others are kept, in order. -/
theorem claim_C9_cleanup_exact (sm : Manager) (now : Int) :
    (∀ p : String × SessionData, p ∈ ((sm.cleanupInactiveSessions now).1).sessions →
       now - p.2.lastActivity ≤ sm.sessionTimeout) ∧
    ((sm.cleanupInactiveSessions now).1).sessions =
      sm.sessions.filter (fun p => decide (now - p.2.lastActivity ≤ sm.sessionTimeout)) ∧
    (sm.cleanupInactiveSessions now).2 =
      (sm.sessions.filter
        (fun p => decide (now - p.2.lastActivity > sm.sessionTimeout))).map Prod.fst := by
  refine ⟨?_, ?_, ?_⟩
  · intro p hp
    simp only [Manager.cleanupInactiveSessions, cleanupScan_eq] at hp
    have := (List.mem_filter.mp hp).2
    simpa using this
  · simp [Manager.cleanupInactiveSessions, cleanupScan_eq]
  · simp [Manager.cleanupInactiveSessions, cleanupScan_eq]

/-- A concrete instance of claim C9: the session kept by a cleanup scan
is within the timeout. -/
theorem claim_C9_witness :
    (100 : Int) - ({ lastActivity := 95 } : SessionData).lastActivity ≤ 10 :=
  (claim_C9_cleanup_exact
    { sessions := [("old", { lastActivity := 0 }), ("fresh", { lastActivity := 95 })],
      maxSessions := 5, sessionTimeout := 10 } 100).1
    ("fresh", { lastActivity := 95 }) (by decide)
